import Mathlib

/-!
Verification development for the sgr-deep-research agent engine.

Shallow embedding of the core: `core/models.py` (ResearchContext and its
pruning), `core/tools/research.py` (web search / extraction / report tools),
`core/agents/base_agent.py` (the execution loop and clarification resume),
`core/agents/sgr_agent.py` and `core/agents/sgr_tools_agent.py` (the two
legal-set builders `_prepare_tools`).
-/

namespace SGR

/-- AgentStatesEnum from core/models.py. -/
inductive AgentState where
  | inited
  | researching
  | waiting_for_clarification
  | completed
  | error
  | failed
deriving DecidableEq

/-- AgentStatesEnum.FINISH_STATES from core/models.py. -/
def finishStates : List AgentState := [.completed, .failed, .error]

/-- SourceData from core/models.py. -/
structure SourceData where
  number : Nat
  title : Option String := some "Untitled"
  url : String
  snippet : String := ""
  full_content : String := ""
  char_count : Nat := 0
deriving DecidableEq

/-- SourceData.__str__ from core/models.py: "[n] title - url"; Python's
`self.title or 'Untitled'` falls back on None and on the empty string. -/
def SourceData.str (s : SourceData) : String :=
  let t := match s.title with
    | some t => if t = "" then "Untitled" else t
    | none => "Untitled"
  "[" ++ toString s.number ++ "] " ++ t ++ " - " ++ s.url

/-- SearchResult from core/models.py; the timestamp is an opaque tick. -/
structure SearchResult where
  query : String
  answer : Option String := none
  citations : List SourceData := []
  timestamp : Nat := 0
deriving DecidableEq

/-- ResearchContext from core/models.py. `sources` is a Python dict keyed by
URL: modelled as an insertion-ordered association list (assignment to an
existing key updates in place, a new key is appended). `clarification_received`
is an asyncio.Event, modelled as its set/unset Bool. The `current_state_reasoning`
field (typed Any, an opaque payload consumed only by logging) is omitted. -/
structure ResearchContext where
  state : AgentState := .inited
  iteration : Nat := 0
  searches : List SearchResult := []
  sources : List (String × SourceData) := []
  previous_searches_summary : String := ""
  searches_used : Nat := 0
  report_created : Bool := false
  clarifications_used : Nat := 0
  clarification_received : Bool := false
deriving DecidableEq

/-- Python `d[k] = v` on an insertion-ordered dict: update in place if the key
exists, else append. -/
def dictSet (d : List (String × SourceData)) (k : String) (v : SourceData) :
    List (String × SourceData) :=
  if d.any (fun p => p.1 = k) then d.map (fun p => if p.1 = k then (k, v) else p)
  else d ++ [(k, v)]

/-- The `for source in sources: context.sources[source.url] = source` loops of
WebSearchTool.__call__ and ExtractContentTool.__call__. -/
def dictInsertAll (d : List (String × SourceData)) (ss : List SourceData) :
    List (String × SourceData) :=
  ss.foldl (fun d s => dictSet d s.url s) d

/-- One old search's synopsis line built by
ResearchContext.cleanup_old_searches_and_save_summary. Python truthiness:
`if search.answer` skips None and the empty string, `if search.citations`
skips the empty list; `f"{cite.title}"` renders None as "None". -/
def summaryOfSearch (s : SearchResult) : String :=
  let base := "Query: '" ++ s.query ++ "'"
  let base := match s.answer with
    | some a => if a = "" then base else base ++ " - Answer: " ++ a.take 200 ++ "..."
    | none => base
  match s.citations with
  | [] => base
  | cs =>
    let key_sources := (cs.take 2).map (fun c =>
      (match c.title with | some t => t | none => "None") ++ " (" ++ c.url ++ ")")
    base ++ " - Sources: " ++ String.intercalate ", " key_sources

/-- ResearchContext.cleanup_old_searches_and_save_summary from core/models.py.
Python slices: for keep > 0, `searches[:-keep]` is the first len-keep entries
and `searches[-keep:]` the last keep; for keep = 0 they are [] and the whole
list respectively. -/
def cleanup_old_searches_and_save_summary (keep : Nat) (c : ResearchContext) :
    ResearchContext :=
  if keep < c.searches.length then
    let old_searches := if keep = 0 then [] else c.searches.take (c.searches.length - keep)
    let summary_parts := old_searches.map summaryOfSearch
    let new_summary := String.intercalate "\n" summary_parts
    let prev :=
      if c.previous_searches_summary = "" then new_summary
      else c.previous_searches_summary ++ "\n\n--- Previous searches ---\n" ++ new_summary
    let kept := if keep = 0 then c.searches else c.searches.drop (c.searches.length - keep)
    let recent_source_urls := (kept.map (fun s => s.citations.map SourceData.url)).flatten
    { c with
      previous_searches_summary := prev,
      searches := kept,
      sources := c.sources.filter (fun p => recent_source_urls.contains p.1) }
  else c

/-- Modelled from the spec: `TavilySearchService.rearrange_sources`
(services/tavily_search.py is not under src/). The spec says citation numbers
are assigned by the engine on ingestion, consecutively from the given
starting number. -/
def rearrange_sources : List SourceData → Nat → List SourceData
  | [], _ => []
  | s :: rest, n => { s with number := n } :: rearrange_sources rest (n + 1)

/-- The decoded arguments of WebSearchTool (core/tools/research.py). -/
structure WebSearchArgs where
  reasoning : String := ""
  query : String
  max_results : Option Nat := none
  scrape_content : Bool := false
deriving DecidableEq

/-- WebSearchTool.__call__ from core/tools/research.py, successful path:
`fetched` is the provider's result list. Numbers are assigned with
starting_number = len(context.sources) + 1, the sources are folded into the
context dict, a SearchResult citing them is appended, the pruner runs
synchronously with max_searches_to_keep = 1, and searches_used is incremented.
The Wikipedia auto-extraction step only rewrites full_content / char_count of
the already fetched entries (it changes no URL, number or membership) and is
absorbed into `fetched`. -/
def webSearchEffect (args : WebSearchArgs) (fetched : List SourceData) (ts : Nat)
    (c : ResearchContext) : ResearchContext :=
  let batch := rearrange_sources fetched (c.sources.length + 1)
  let c := { c with sources := dictInsertAll c.sources batch }
  let c := { c with
    searches := c.searches ++ [{ query := args.query, answer := none,
                                 citations := batch, timestamp := ts }] }
  let c := cleanup_old_searches_and_save_summary 1 c
  { c with searches_used := c.searches_used + 1 }

/-- ExtractContentTool.__call__ from core/tools/research.py, successful path:
numbers the extracted sources from len(context.sources) + 1 and folds them into
the context dict. No SearchResult is appended and the pruner does not run. -/
def extractEffect (fetched : List SourceData) (c : ResearchContext) : ResearchContext :=
  let batch := rearrange_sources fetched (c.sources.length + 1)
  { c with sources := dictInsertAll c.sources batch }

/-- The tool classes named by core/tools/__init__.py. -/
inductive Tool where
  | ClarificationTool
  | GeneratePlanTool
  | AdaptPlanTool
  | AgentCompletionTool
  | ReasoningTool
  | SimpleAnswerTool
  | WebSearchTool
  | ExtractContentTool
  | CreateReportTool
deriving DecidableEq

/-- research_agent_tools from core/tools/research.py. -/
def research_agent_tools : List Tool :=
  [.WebSearchTool, .ExtractContentTool, .CreateReportTool]

/-- SGRResearchAgent._prepare_tools from core/agents/sgr_agent.py: the legal
set for the schema-guided strategy, as the set of tool classes handed to
NextStepToolsBuilder. Note the searches_used == 0 rule is a plain `if`, so it
also applies to the set rebuilt by the max-iterations branch. -/
def SGRResearchAgent_prepare_tools (toolkit : Finset Tool)
    (max_iterations max_searches : Nat) (c : ResearchContext) : Finset Tool :=
  if c.report_created then {Tool.AgentCompletionTool}
  else
    let tools := if max_iterations ≤ c.iteration then
        ({Tool.CreateReportTool, Tool.AgentCompletionTool} : Finset Tool)
      else toolkit
    let tools := if c.searches_used = 0 ∧ Tool.CreateReportTool ∈ tools then
        tools \ {Tool.CreateReportTool}
      else tools
    if max_searches ≤ c.searches_used then tools \ {Tool.WebSearchTool} else tools

/-- The exception raised by `tools -= {WebSearchTool}` in
SGRToolCallingResearchAgent._prepare_tools after the wind-down branch rebound
`tools` to a Python list (sgr_tools_agent.py lines 70-90). -/
def listMinusSetTypeError : String :=
  "TypeError: unsupported operand type(s) for -=: 'list' and 'set'"

/-- SGRToolCallingResearchAgent._prepare_tools from
core/agents/sgr_tools_agent.py: the legal set for the native tool-calling
strategy, or the exception the method raises. Here the searches_used == 0
rule is an `elif` of the max-iterations branch, and the report-created and
wind-down branches both include ReasoningTool — but they rebind `tools` to a
Python *list*. The report-created branch returns before any removal; the
wind-down branch does not, so the later `tools -= {WebSearchTool}` raises
TypeError whenever searches_used >= max_searches. -/
def SGRToolCallingResearchAgent_prepare_tools (toolkit : Finset Tool)
    (max_iterations max_searches : Nat) (c : ResearchContext) :
    Except String (Finset Tool) :=
  if c.report_created then
    Except.ok {Tool.ReasoningTool, Tool.AgentCompletionTool}
  else if max_iterations ≤ c.iteration then
    if max_searches ≤ c.searches_used then Except.error listMinusSetTypeError
    else Except.ok {Tool.ReasoningTool, Tool.CreateReportTool, Tool.AgentCompletionTool}
  else
    let tools := if c.searches_used = 0 then toolkit \ {Tool.CreateReportTool}
      else toolkit
    Except.ok (if max_searches ≤ c.searches_used then tools \ {Tool.WebSearchTool}
      else tools)

instance : DecidableEq (Except String (Finset Tool)) := fun x y =>
  match x, y with
  | .ok a, .ok b => decidable_of_iff (a = b) (by simp)
  | .error a, .error b => decidable_of_iff (a = b) (by simp)
  | .ok _, .error _ => Decidable.isFalse (by simp)
  | .error _, .ok _ => Decidable.isFalse (by simp)

/-- The confidence literal of CreateReportTool. -/
inductive Confidence where
  | high
  | medium
  | low
deriving DecidableEq

/-- The decoded arguments of CreateReportTool (core/tools/research.py). -/
structure CreateReportArgs where
  reasoning : String := ""
  title : String
  direct_answer : String
  user_request_language_reference : String := ""
  calculations : String := ""
  content : String
  confidence : Confidence := .high
deriving DecidableEq

/-- The exact validation-failure return string of CreateReportTool.__call__. -/
def reportValidationError : String :=
  "ERROR: Report validation failed. Title, direct_answer, and content cannot be empty. Please provide a complete report with actual research findings."

/-- Python str.strip(): drop leading and trailing whitespace. -/
def pyStrip (s : String) : String :=
  String.mk
    (((s.toList.dropWhile Char.isWhitespace).reverse.dropWhile Char.isWhitespace).reverse)

/-- The empty-or-whitespace-only test of CreateReportTool.__call__:
`not self.title.strip() or not self.direct_answer.strip() or not self.content.strip()`. -/
def reportInvalid (a : CreateReportArgs) : Prop :=
  pyStrip a.title = "" ∨ pyStrip a.direct_answer = "" ∨ pyStrip a.content = ""

instance (a : CreateReportArgs) : Decidable (reportInvalid a) := by
  unfold reportInvalid; infer_instance

/-- The `safe_title` computed by CreateReportTool.__call__: keep alphanumeric
characters, spaces, dashes and underscores, then truncate to 50 characters. -/
def safeTitle (t : String) : String :=
  String.mk ((t.toList.filter
    (fun ch => ch.isAlphanum ∨ ch = ' ' ∨ ch = '-' ∨ ch = '_')).take 50)

/-- The Markdown document CreateReportTool.__call__ writes: title header,
creation stamp, optional calculations section, direct answer, detailed
content, then the sources list. `now` stands for the wall-clock stamp. -/
def reportFileContent (a : CreateReportArgs) (now : String) (c : ResearchContext) :
    String :=
  "# " ++ a.title ++ "\n\n"
    ++ "*Created: " ++ now ++ "*\n\n"
    ++ (if pyStrip a.calculations = "" then ""
        else "## 🧮 Calculations\n\n" ++ a.calculations ++ "\n\n")
    ++ "## 🎯 Direct Answer\n\n**" ++ a.direct_answer ++ "**\n\n"
    ++ "## 📊 Detailed Report\n\n" ++ a.content ++ "\n\n"
    ++ "## 📚 Sources\n\n"
    ++ String.intercalate "\n" (c.sources.map (fun p => "- " ++ SourceData.str p.2))

/-- The side effects of one CreateReportTool call, in program order. -/
inductive ReportEffect where
  | markReportCreated
  | writeFile (filename : String) (content : String)
deriving DecidableEq

/-- The `report` dict CreateReportTool.__call__ serializes as its return value
on success; `word_count` is `len(content.split())`. -/
structure ReportDoc where
  title : String
  direct_answer : String
  content : String
  confidence : Confidence
  sources_count : Nat
  word_count : Nat
  filepath : String
  timestamp : String
deriving DecidableEq

/-- The return value of CreateReportTool.__call__: the exact error string on
validation failure, or the serialized report dict. -/
inductive ReportCallResult where
  | text (s : String)
  | reportJson (doc : ReportDoc)
deriving DecidableEq

/-- Python `len(content.split())`: split on whitespace runs, drop empties. -/
def pyWordCount (s : String) : Nat :=
  ((s.split Char.isWhitespace).filter (fun w => w ≠ "")).length

/-- CreateReportTool.__call__ from core/tools/research.py. Returns the
mutated context, the ordered file-system/latch side effects, and the return
string. `now` stands for the timestamp used in the filename, the document and
the report dict. On validation failure nothing is mutated and nothing is
written; on success report_created is set before the file write. -/
def createReportCall (a : CreateReportArgs) (now : String) (c : ResearchContext) :
    ResearchContext × List ReportEffect × ReportCallResult :=
  if reportInvalid a then (c, [], .text reportValidationError)
  else
    let c2 := { c with report_created := true }
    let filename := now ++ "_" ++ safeTitle a.title ++ ".md"
    let doc : ReportDoc :=
      { title := a.title, direct_answer := a.direct_answer, content := a.content,
        confidence := a.confidence, sources_count := c2.sources.length,
        word_count := pyWordCount a.content, filepath := filename, timestamp := now }
    (c2, [.markReportCreated, .writeFile filename (reportFileContent a now c2)],
      .reportJson doc)

/-! The execution loop of BaseAgent.execute (core/agents/base_agent.py). -/

/-- The slice of BaseAgent state the loop touches: the shared context and the
conversation transcript. Messages are (role, content) pairs. -/
structure Agent where
  task : String
  maxIterations : Nat
  ctx : ResearchContext := {}
  conversation : List (String × String) := []

/-- BaseAgent construction: a fresh context and an empty conversation. -/
def Agent.new (task : String) (maxIterations : Nat) : Agent :=
  { task := task, maxIterations := maxIterations }

/-- BaseAgent.provide_clarification: append the clarification to the
conversation, count it, set the resume signal, flip the state back to
RESEARCHING. -/
def provide_clarification (a : Agent) (clarifications : String) : Agent :=
  { a with
    conversation := a.conversation ++ [("user", "CLARIFICATIONS: " ++ clarifications)],
    ctx := { a.ctx with
      clarifications_used := a.ctx.clarifications_used + 1,
      clarification_received := true,
      state := .researching } }

/-- What one loop pass's three phases (reasoning, select, action) do, once the
pass has survived the iteration-cap check. `raises` is an unhandled exception
from any of the phases, with the context mutations that happened before the
raise; `act` is a completed pass whose selected tool mutated the context by
`eff`, flagged when the tool is the ClarificationTool, in which case
`clarText` is the text the caller later feeds to provide_clarification. -/
inductive StepOutcome where
  | raises (eff : ResearchContext → ResearchContext)
  | act (isClarification : Bool) (eff : ResearchContext → ResearchContext)
      (clarText : String)

/-- No tool of the repository writes the iteration counter: only the loop
itself increments it. A script models real phases when its effects leave
`iteration` alone. -/
def StepOutcome.preservesIteration : StepOutcome → Prop
  | .raises eff => ∀ c, (eff c).iteration = c.iteration
  | .act _ eff _ => ∀ c, (eff c).iteration = c.iteration

/-- How BaseAgent.execute's while-loop was left. -/
inductive ExitKind where
  | finishedState
  | capReached
  | raised
  | outOfFuel
deriving DecidableEq

structure LoopResult where
  agent : Agent
  reasoningPhases : Nat
  exitKind : ExitKind

/-- The while-loop of BaseAgent.execute, driven by a script giving each pass's
phase outcome. Per pass: exit if the state is terminal; increment iteration;
if iteration > max_iterations force COMPLETED and stop; otherwise run the
phases. An exception sets FAILED and leaves the loop. A clarification pass
sets WAITING_FOR_CLARIFICATION, clears the signal, blocks until the caller's
provide_clarification call, and continues. The fuel argument only bounds the
recursion; maxIterations + 1 is always enough (executeLoop_fuel). -/
def executeLoop (script : Nat → StepOutcome) :
    Nat → Nat → Agent → LoopResult
  | 0, _, a => ⟨a, 0, .outOfFuel⟩
  | fuel + 1, pass, a =>
    if a.ctx.state ∈ finishStates then ⟨a, 0, .finishedState⟩
    else
      let a := { a with ctx := { a.ctx with iteration := a.ctx.iteration + 1 } }
      if a.maxIterations < a.ctx.iteration then
        ⟨{ a with ctx := { a.ctx with state := .completed } }, 0, .capReached⟩
      else
        match script pass with
        | .raises eff =>
          ⟨{ a with ctx := { eff a.ctx with state := .failed } }, 1, .raised⟩
        | .act isClar eff clarText =>
          let a := { a with ctx := eff a.ctx }
          let a :=
            if isClar then
              provide_clarification
                { a with ctx := { a.ctx with
                    state := .waiting_for_clarification,
                    clarification_received := false } }
                clarText
            else a
          let r := executeLoop script fuel (pass + 1) a
          { r with reasoningPhases := r.reasoningPhases + 1 }

/-- The IO fate of one cleanup call in the finally block of
BaseAgent.execute: streaming_generator.finish(), or _save_agent_log() with
its os.makedirs / open / json.dump. Either completes or raises. -/
inductive CleanupOutcome where
  | ok
  | raisesErr
deriving DecidableEq

/-- The outcome of BaseAgent.execute: the final agent, how many passes ran
their phases, how the loop exited, whether the `finally` block managed to
flush the streaming sink and to persist the agent log, and whether an
exception escaped the execute() call itself. -/
structure ExecOut where
  agent : Agent
  reasoningPhases : Nat
  exitKind : ExitKind
  streamFinished : Bool
  logSaved : Bool
  escaped : Bool

/-- BaseAgent.execute: append the original-request message, run the loop
(whose phase exceptions the except handler turns into state = FAILED), then
the finally block. streaming_generator.finish() runs first: if it raises, the
log save never runs and that exception escapes execute(); otherwise
_save_agent_log() runs, and an exception from it escapes execute() too. Only
when both cleanup calls complete does execute() return without an escaping
exception. -/
def execute (script : Nat → StepOutcome) (finishFate saveFate : CleanupOutcome)
    (a : Agent) : ExecOut :=
  let a := { a with conversation :=
    a.conversation ++ [("user", "\nORIGINAL USER REQUEST: '" ++ a.task ++ "'\n")] }
  let r := executeLoop script (a.maxIterations + 1) 0 a
  match finishFate with
  | .raisesErr =>
    { agent := r.agent, reasoningPhases := r.reasoningPhases, exitKind := r.exitKind,
      streamFinished := false, logSaved := false, escaped := true }
  | .ok =>
    match saveFate with
    | .raisesErr =>
      { agent := r.agent, reasoningPhases := r.reasoningPhases,
        exitKind := r.exitKind, streamFinished := true, logSaved := false,
        escaped := true }
    | .ok =>
      { agent := r.agent, reasoningPhases := r.reasoningPhases,
        exitKind := r.exitKind, streamFinished := true, logSaved := true,
        escaped := false }

/-! A trace of executed tool capabilities, for budget invariants: each step is
one tool execution against the shared context. -/

/-- One executed capability with its external inputs. For search and extract,
`none` is the provider raising (the tool returns an error string and mutates
nothing). -/
inductive TraceStep where
  | search (args : WebSearchArgs) (fetched : Option (List SourceData)) (ts : Nat)
  | extract (fetched : Option (List SourceData))
  | report (args : CreateReportArgs) (now : String)
  | completion
  | clarification
  | generatePlan
  | adaptPlan
  | reasoningStep

/-- The tool class a trace step executes. -/
def TraceStep.tool : TraceStep → Tool
  | .search _ _ _ => .WebSearchTool
  | .extract _ => .ExtractContentTool
  | .report _ _ => .CreateReportTool
  | .completion => .AgentCompletionTool
  | .clarification => .ClarificationTool
  | .generatePlan => .GeneratePlanTool
  | .adaptPlan => .AdaptPlanTool
  | .reasoningStep => .ReasoningTool

/-- The context mutation of one executed capability. Search, extract and
report are from core/tools/research.py; GeneratePlanTool
(tools/generate_plan_tool.py) returns a string and mutates nothing. Modelled
from the spec: AgentCompletionTool, ClarificationTool, AdaptPlanTool and
ReasoningTool live in core/tools/base.py, which is not under src/; per the
spec the completion capability ends the run in the terminal COMPLETED state,
while the clarification suspend/resume, plan bookkeeping and reasoning
summaries mutate no budget counter (searches_used is incremented only by the
search capability, clarifications_used only by provide_clarification). -/
def TraceStep.effect : TraceStep → ResearchContext → ResearchContext
  | .search args (some fetched) ts => webSearchEffect args fetched ts
  | .search _ none _ => id
  | .extract (some fetched) => extractEffect fetched
  | .extract none => id
  | .report args now => fun c => (createReportCall args now c).1
  | .completion => fun c => { c with state := .completed }
  | .clarification => id
  | .generatePlan => id
  | .adaptPlan => id
  | .reasoningStep => id

/-- Run a trace of capability executions against the context. -/
def runTrace : List TraceStep → ResearchContext → ResearchContext
  | [], c => c
  | s :: rest, c => runTrace rest (s.effect c)

/-- A trace is legal for a legal-set builder when each step's tool is in the
legal set computed from the context it executes against. -/
def LegalTrace (prep : ResearchContext → Finset Tool) :
    List TraceStep → ResearchContext → Prop
  | [], _ => True
  | s :: rest, c => s.tool ∈ prep c ∧ LegalTrace prep rest (s.effect c)

/-- Legality against a builder that may raise instead of returning a legal
set (the native tool-calling strategy): a step is legal only when the builder
actually produced a set containing the step's tool — when the builder raises,
no tool can be drawn from it. -/
def LegalTraceE (prep : ResearchContext → Except String (Finset Tool)) :
    List TraceStep → ResearchContext → Prop
  | [], _ => True
  | s :: rest, c =>
    (∃ ts, prep c = .ok ts ∧ s.tool ∈ ts) ∧ LegalTraceE prep rest (s.effect c)

/-! Theorems. -/

/-- A concrete toolkit for instantiations: the research tools together with
the completion and plan capabilities. -/
def exampleToolkit : Finset Tool :=
  {Tool.GeneratePlanTool, Tool.AdaptPlanTool, Tool.AgentCompletionTool,
   Tool.WebSearchTool, Tool.ExtractContentTool, Tool.CreateReportTool}

/-- C1 counterexample: with report_created set, the native tool-calling
legal-set builder returns the reasoning capability alongside the completion
capability, so the legal set is not exactly the completion capability. -/
theorem C1_report_latch_counterexample :
    SGRToolCallingResearchAgent_prepare_tools exampleToolkit 10 3
        { report_created := true } ≠ Except.ok {Tool.AgentCompletionTool} ∧
    SGRToolCallingResearchAgent_prepare_tools exampleToolkit 10 3
        { report_created := true } =
      Except.ok {Tool.ReasoningTool, Tool.AgentCompletionTool} := by
  constructor <;> decide

/-- C1 amended: once report_created is true, the schema-guided builder yields
exactly the completion capability, and the native tool-calling builder
returns (before its faulty removal line) exactly the reasoning and completion
capabilities, for every toolkit and every budget configuration. -/
theorem C1_report_latch_amended (toolkit : Finset Tool) (mi ms : Nat)
    (c : ResearchContext) (h : c.report_created = true) :
    SGRResearchAgent_prepare_tools toolkit mi ms c = {Tool.AgentCompletionTool} ∧
    SGRToolCallingResearchAgent_prepare_tools toolkit mi ms c =
      Except.ok {Tool.ReasoningTool, Tool.AgentCompletionTool} := by
  unfold SGRResearchAgent_prepare_tools SGRToolCallingResearchAgent_prepare_tools
  simp [h]

/-- C1 witness: the amended latch at a concrete latched context. -/
theorem C1_report_latch_witness :
    ({ report_created := true } : ResearchContext).report_created = true ∧
    SGRResearchAgent_prepare_tools exampleToolkit 10 3 { report_created := true } =
      {Tool.AgentCompletionTool} ∧
    SGRToolCallingResearchAgent_prepare_tools exampleToolkit 10 3
        { report_created := true } =
      Except.ok {Tool.ReasoningTool, Tool.AgentCompletionTool} :=
  ⟨rfl, C1_report_latch_amended exampleToolkit 10 3 { report_created := true } rfl⟩

/-- C3 counterexample: at the iteration cap with no searches performed, the
schema-guided builder drops the report-creation capability (its
searches_used == 0 rule is a plain `if`, not an `else` of the cap branch), so
the wind-down set is not {report-creation, completion}; and at the iteration
cap with the search budget exhausted, the native builder raises TypeError
(the wind-down branch rebound tools to a list), so it does not yield the
claimed set regardless of searches_used either. -/
theorem C3_winddown_counterexample :
    SGRResearchAgent_prepare_tools exampleToolkit 5 3
        { iteration := 5, searches_used := 0 } ≠
      {Tool.CreateReportTool, Tool.AgentCompletionTool} ∧
    SGRResearchAgent_prepare_tools exampleToolkit 5 3
        { iteration := 5, searches_used := 0 } = {Tool.AgentCompletionTool} ∧
    SGRToolCallingResearchAgent_prepare_tools exampleToolkit 5 3
        { iteration := 5, searches_used := 3 } =
      Except.error listMinusSetTypeError := by
  refine ⟨by decide, by decide, by decide⟩

/-- C3 amended: with report_created false and iteration at or past the cap,
the native tool-calling builder yields exactly {reasoning, report-creation,
completion} when searches_used < max_searches, but raises TypeError
(list -= set) when searches_used >= max_searches; the schema-guided builder
yields {report-creation, completion} only when searches_used is nonzero and
{completion} alone when searches_used is zero. -/
theorem C3_winddown_amended (toolkit : Finset Tool) (mi ms : Nat)
    (c : ResearchContext) (h1 : c.report_created = false) (h2 : mi ≤ c.iteration) :
    (c.searches_used < ms →
      SGRToolCallingResearchAgent_prepare_tools toolkit mi ms c =
        Except.ok {Tool.ReasoningTool, Tool.CreateReportTool,
          Tool.AgentCompletionTool}) ∧
    (ms ≤ c.searches_used →
      SGRToolCallingResearchAgent_prepare_tools toolkit mi ms c =
        Except.error listMinusSetTypeError) ∧
    SGRResearchAgent_prepare_tools toolkit mi ms c =
      (if c.searches_used = 0 then {Tool.AgentCompletionTool}
       else {Tool.CreateReportTool, Tool.AgentCompletionTool}) := by
  refine ⟨?_, ?_, ?_⟩
  · intro hlt
    unfold SGRToolCallingResearchAgent_prepare_tools
    simp only [h1, Bool.false_eq_true, if_false, if_pos h2]
    rw [if_neg (by omega)]
  · intro hge
    unfold SGRToolCallingResearchAgent_prepare_tools
    simp only [h1, Bool.false_eq_true, if_false, if_pos h2]
    rw [if_pos hge]
  · unfold SGRResearchAgent_prepare_tools
    simp only [h1, Bool.false_eq_true, if_false, if_pos h2]
    by_cases h0 : c.searches_used = 0
    · have hA : c.searches_used = 0 ∧
          Tool.CreateReportTool ∈
            ({Tool.CreateReportTool, Tool.AgentCompletionTool} : Finset Tool) :=
        ⟨h0, by decide⟩
      rw [if_pos hA, if_pos h0]
      split_ifs <;> decide
    · have hA : ¬(c.searches_used = 0 ∧
          Tool.CreateReportTool ∈
            ({Tool.CreateReportTool, Tool.AgentCompletionTool} : Finset Tool)) :=
        fun hc => h0 hc.1
      rw [if_neg hA, if_neg h0]
      split_ifs
      · decide
      · rfl

/-- C3 witness: the amended wind-down rule at concrete capped contexts —
schema-guided with and without recorded searches, native under and at the
search cap. -/
theorem C3_winddown_witness :
    (({ iteration := 5, searches_used := 0 } : ResearchContext).report_created = false ∧
      5 ≤ ({ iteration := 5, searches_used := 0 } : ResearchContext).iteration ∧
      SGRResearchAgent_prepare_tools exampleToolkit 5 3
          { iteration := 5, searches_used := 0 } = {Tool.AgentCompletionTool}) ∧
    (({ iteration := 7, searches_used := 2 } : ResearchContext).report_created = false ∧
      5 ≤ ({ iteration := 7, searches_used := 2 } : ResearchContext).iteration ∧
      SGRResearchAgent_prepare_tools exampleToolkit 5 3
          { iteration := 7, searches_used := 2 } =
        {Tool.CreateReportTool, Tool.AgentCompletionTool}) ∧
    SGRToolCallingResearchAgent_prepare_tools exampleToolkit 5 3
        { iteration := 7, searches_used := 2 } =
      Except.ok {Tool.ReasoningTool, Tool.CreateReportTool,
        Tool.AgentCompletionTool} ∧
    SGRToolCallingResearchAgent_prepare_tools exampleToolkit 5 3
        { iteration := 5, searches_used := 3 } =
      Except.error listMinusSetTypeError := by
  refine ⟨⟨rfl, by decide, ?_⟩, ⟨rfl, by decide, ?_⟩, ?_, ?_⟩
  · exact ((C3_winddown_amended exampleToolkit 5 3
      { iteration := 5, searches_used := 0 } rfl (by decide)).2.2).trans (by decide)
  · exact ((C3_winddown_amended exampleToolkit 5 3
      { iteration := 7, searches_used := 2 } rfl (by decide)).2.2).trans (by decide)
  · exact (C3_winddown_amended exampleToolkit 5 3
      { iteration := 7, searches_used := 2 } rfl (by decide)).1 (by decide)
  · exact (C3_winddown_amended exampleToolkit 5 3
      { iteration := 5, searches_used := 3 } rfl (by decide)).2.1 (by decide)

/-- At the search cap the schema-guided legal set has no search capability. -/
theorem sgr_no_search_at_cap (toolkit : Finset Tool) (mi ms : Nat)
    (c : ResearchContext) (h : ms ≤ c.searches_used) :
    Tool.WebSearchTool ∉ SGRResearchAgent_prepare_tools toolkit mi ms c := by
  unfold SGRResearchAgent_prepare_tools
  split_ifs <;> simp_all [Finset.mem_sdiff]

/-- At the search cap, whenever the native tool-calling builder returns a
legal set at all (it may instead raise TypeError in its wind-down branch),
that set has no search capability. -/
theorem tools_no_search_at_cap (toolkit : Finset Tool) (mi ms : Nat)
    (c : ResearchContext) (h : ms ≤ c.searches_used) (ts : Finset Tool)
    (hok : SGRToolCallingResearchAgent_prepare_tools toolkit mi ms c =
      Except.ok ts) :
    Tool.WebSearchTool ∉ ts := by
  unfold SGRToolCallingResearchAgent_prepare_tools at hok
  simp only [] at hok
  by_cases hrep : c.report_created = true
  · rw [if_pos hrep] at hok
    cases hok
    decide
  · rw [if_neg hrep] at hok
    by_cases hcap : mi ≤ c.iteration
    · rw [if_pos hcap, if_pos h] at hok
      cases hok
    · rw [if_neg hcap, if_pos h] at hok
      cases hok
      simp [Finset.mem_sdiff]

/-- The pruner never touches the searches_used counter. -/
theorem cleanup_searches_used (k : Nat) (c : ResearchContext) :
    (cleanup_old_searches_and_save_summary k c).searches_used = c.searches_used := by
  unfold cleanup_old_searches_and_save_summary
  split_ifs <;> rfl

/-- A successful web search increments searches_used by exactly one. -/
theorem webSearchEffect_searches_used (args : WebSearchArgs)
    (fetched : List SourceData) (ts : Nat) (c : ResearchContext) :
    (webSearchEffect args fetched ts c).searches_used = c.searches_used + 1 := by
  unfold webSearchEffect
  simp only []
  rw [cleanup_searches_used]

/-- Each capability execution leaves searches_used unchanged, except a web
search, which adds one. -/
theorem TraceStep.effect_searches_used (s : TraceStep) (c : ResearchContext) :
    (s.effect c).searches_used = c.searches_used ∨
      (s.tool = .WebSearchTool ∧
        (s.effect c).searches_used = c.searches_used + 1) := by
  cases s with
  | search args fetched ts =>
    cases fetched with
    | some f => exact Or.inr ⟨rfl, webSearchEffect_searches_used args f ts c⟩
    | none => exact Or.inl rfl
  | extract fetched => cases fetched <;> exact Or.inl rfl
  | report args now =>
    refine Or.inl ?_
    show (createReportCall args now c).1.searches_used = c.searches_used
    unfold createReportCall
    split_ifs <;> rfl
  | completion => exact Or.inl rfl
  | clarification => exact Or.inl rfl
  | generatePlan => exact Or.inl rfl
  | adaptPlan => exact Or.inl rfl
  | reasoningStep => exact Or.inl rfl

/-- The budget induction: if the legal-set builder withholds the search
capability at the cap, a trace drawn from the legal set keeps searches_used
at or under the cap. -/
theorem legal_trace_budget (prep : ResearchContext → Finset Tool) (ms : Nat)
    (hprep : ∀ c, ms ≤ c.searches_used → Tool.WebSearchTool ∉ prep c) :
    ∀ (tr : List TraceStep) (c : ResearchContext),
      c.searches_used ≤ ms → LegalTrace prep tr c →
      (runTrace tr c).searches_used ≤ ms := by
  intro tr
  induction tr with
  | nil => intro c hc _; exact hc
  | cons s rest ih =>
    intro c hc hlegal
    obtain ⟨hmem, hrest⟩ := hlegal
    refine ih (s.effect c) ?_ hrest
    rcases TraceStep.effect_searches_used s c with heq | ⟨htool, heq⟩
    · omega
    · have : ¬ ms ≤ c.searches_used := fun hcap => (hprep c hcap) (htool ▸ hmem)
      omega

/-- The budget induction for a builder that may raise: a step is legal only
through an actually produced legal set, so a builder that never puts the
search capability in a produced set at the cap bounds searches_used. -/
theorem legal_trace_budget_except
    (prep : ResearchContext → Except String (Finset Tool)) (ms : Nat)
    (hprep : ∀ c ts, ms ≤ c.searches_used → prep c = .ok ts →
      Tool.WebSearchTool ∉ ts) :
    ∀ (tr : List TraceStep) (c : ResearchContext),
      c.searches_used ≤ ms → LegalTraceE prep tr c →
      (runTrace tr c).searches_used ≤ ms := by
  intro tr
  induction tr with
  | nil => intro c hc _; exact hc
  | cons s rest ih =>
    intro c hc hlegal
    obtain ⟨⟨ts, hok, hmem⟩, hrest⟩ := hlegal
    refine ih (s.effect c) ?_ hrest
    rcases TraceStep.effect_searches_used s c with heq | ⟨htool, heq⟩
    · omega
    · have : ¬ ms ≤ c.searches_used :=
        fun hcap => (hprep c ts hcap hok) (htool ▸ hmem)
      omega

/-- C5: search budget. For any legality-respecting trace of capability
executions (either strategy), searches_used never exceeds max_searches; and
once at the cap, no legal set either strategy's builder produces contains the
web-search capability (the native builder may instead raise TypeError in its
wind-down branch, producing no legal set at all). -/
theorem C5_search_budget (toolkit : Finset Tool) (mi ms : Nat)
    (tr : List TraceStep) (c : ResearchContext) (hc : c.searches_used ≤ ms) :
    (LegalTrace (SGRResearchAgent_prepare_tools toolkit mi ms) tr c →
      (runTrace tr c).searches_used ≤ ms) ∧
    (LegalTraceE (SGRToolCallingResearchAgent_prepare_tools toolkit mi ms) tr c →
      (runTrace tr c).searches_used ≤ ms) ∧
    (ms ≤ c.searches_used →
      Tool.WebSearchTool ∉ SGRResearchAgent_prepare_tools toolkit mi ms c ∧
      ∀ ts, SGRToolCallingResearchAgent_prepare_tools toolkit mi ms c =
          Except.ok ts →
        Tool.WebSearchTool ∉ ts) :=
  ⟨legal_trace_budget _ ms (sgr_no_search_at_cap toolkit mi ms) tr c hc,
   legal_trace_budget_except _ ms
     (fun c ts hcap hok => tools_no_search_at_cap toolkit mi ms c hcap ts hok) tr c hc,
   fun hcap => ⟨sgr_no_search_at_cap toolkit mi ms c hcap,
                fun ts hok => tools_no_search_at_cap toolkit mi ms c hcap ts hok⟩⟩

/-- C5 witness: a one-search legal trace against the empty context with
max_searches = 1 stays within the budget. -/
theorem C5_search_budget_witness :
    ({} : ResearchContext).searches_used ≤ 1 ∧
    (runTrace [TraceStep.search { query := "q" } (some [{ number := 0, url := "u" }]) 0]
        {}).searches_used ≤ 1 :=
  ⟨by decide,
   (C5_search_budget exampleToolkit 10 1 _ {} (by decide)).1 ⟨by decide, trivial⟩⟩

/-- A search-result source found by extraction only (claim C6/C7 instances). -/
def srcU : SourceData := { number := 0, url := "u" }

/-- A search-result source found by the later web search (claim C6/C7
instances). -/
def srcV : SourceData := { number := 0, url := "v" }

/-- A reachable context: one extraction, then the first web search. The
pruner ran synchronously inside the web search (its no-op branch, since only
one search is recorded). -/
def ctxC6 : ResearchContext :=
  webSearchEffect { query := "q2" } [srcV] 0 (extractEffect [srcU] {})

/-- C6 counterexample: immediately after the pruner ran inside a web search,
the context still holds the extraction-only source "u", which no retained
search cites — `sources ⊆ cited URLs` fails when the pruning branch was not
taken. -/
theorem C6_pruning_counterexample :
    ctxC6.searches.length ≤ 1 ∧
    "u" ∈ ctxC6.sources.map Prod.fst ∧
    ∀ s ∈ ctxC6.searches, "u" ∉ s.citations.map SourceData.url := by
  decide

/-- C6 amended: after pruning with max_searches_to_keep = 1, at most one
search is retained and the summary never shrinks; and whenever the pruning
branch actually ran (more than one search was recorded), every URL key left
in sources is cited by a retained search. When the pruner is a no-op,
extraction-only sources may stay uncited. -/
theorem C6_pruning_amended (c : ResearchContext) :
    (cleanup_old_searches_and_save_summary 1 c).searches.length ≤ 1 ∧
    c.previous_searches_summary.length ≤
      (cleanup_old_searches_and_save_summary 1 c).previous_searches_summary.length ∧
    (1 < c.searches.length →
      ∀ p ∈ (cleanup_old_searches_and_save_summary 1 c).sources,
        ∃ s ∈ (cleanup_old_searches_and_save_summary 1 c).searches,
          p.1 ∈ s.citations.map SourceData.url) := by
  unfold cleanup_old_searches_and_save_summary
  by_cases h : 1 < c.searches.length
  · rw [if_pos h]
    have h10 : ¬(1 : Nat) = 0 := by decide
    simp only [if_neg h10]
    refine ⟨?_, ?_, ?_⟩
    · simp only [List.length_drop]
      omega
    · split_ifs with he
      · simp [he]
      · rw [String.length_append, String.length_append]
        omega
    · intro _ p hp
      simp only [List.mem_filter] at hp
      obtain ⟨-, hcited⟩ := hp
      have hmem : p.1 ∈ ((c.searches.drop (c.searches.length - 1)).map
          (fun s => s.citations.map SourceData.url)).flatten := by
        simpa using hcited
      obtain ⟨x, hx, hpx⟩ := List.mem_flatten.mp hmem
      obtain ⟨s, hs, rfl⟩ := List.mem_map.mp hx
      exact ⟨s, hs, hpx⟩
  · rw [if_neg h]
    exact ⟨by omega, Nat.le_refl _, fun hl => absurd hl h⟩

/-- C6 witness: the amended pruning invariant at a concrete two-search
context where the pruning branch runs. -/
theorem C6_pruning_witness :
    1 < ({ searches := [{ query := "a", citations := [srcU] },
                        { query := "b", citations := [srcV] }],
           sources := [("u", srcU), ("v", srcV)] } : ResearchContext).searches.length ∧
    ∀ p ∈ (cleanup_old_searches_and_save_summary 1
        { searches := [{ query := "a", citations := [srcU] },
                       { query := "b", citations := [srcV] }],
          sources := [("u", srcU), ("v", srcV)] }).sources,
      ∃ s ∈ (cleanup_old_searches_and_save_summary 1
          { searches := [{ query := "a", citations := [srcU] },
                         { query := "b", citations := [srcV] }],
            sources := [("u", srcU), ("v", srcV)] }).searches,
        p.1 ∈ s.citations.map SourceData.url :=
  ⟨by decide, fun p hp => (C6_pruning_amended _).2.2 (by decide) p hp⟩

/-- Ingestion numbering is consecutive from the starting number. -/
theorem rearrange_sources_numbers (l : List SourceData) :
    ∀ n, (rearrange_sources l n).map SourceData.number = List.range' n l.length := by
  induction l with
  | nil => intro n; rfl
  | cons s rest ih =>
    intro n
    simp only [rearrange_sources, List.map_cons, List.length_cons, List.range'_succ, ih]

/-- Ingestion numbering never renumbers a URL: the batch keeps its URLs. -/
theorem rearrange_sources_urls (l : List SourceData) :
    ∀ n, (rearrange_sources l n).map SourceData.url = l.map SourceData.url := by
  induction l with
  | nil => intro n; rfl
  | cons s rest ih => intro n; simp only [rearrange_sources, List.map_cons, ih]

/-- Pruning with keep = 1 preserves the most recent search. -/
theorem cleanup_keep1_getLast (c : ResearchContext) :
    (cleanup_old_searches_and_save_summary 1 c).searches.getLast? =
      c.searches.getLast? := by
  unfold cleanup_old_searches_and_save_summary
  by_cases h : 1 < c.searches.length
  · rw [if_pos h]
    have h10 : ¬(1 : Nat) = 0 := by decide
    simp only [if_neg h10, List.getLast?_drop]
    rw [if_neg (by omega)]
  · rw [if_neg h]

/-- A reachable context on which per-context citation numbers collide: two
searches (the second pruning the first away) followed by an extraction. -/
def ctxC7 : ResearchContext :=
  extractEffect [{ number := 0, url := "u4" }, { number := 0, url := "u5" }]
    (webSearchEffect { query := "q2" } [{ number := 0, url := "u3" }] 0
      (webSearchEffect { query := "q1" }
        [{ number := 0, url := "u1" }, { number := 0, url := "u2" }] 0 {}))

/-- C7 counterexample: after pruning shrank `sources`, an extraction restarts
numbering at len(sources) + 1 = 2 and collides with the retained source
numbered 3 — the `number` fields are not pairwise distinct per context. -/
theorem C7_numbering_counterexample :
    ctxC7.sources.map (fun p => p.2.number) = [3, 2, 3] ∧
    ¬ (ctxC7.sources.map (fun p => p.2.number)).Nodup := by
  decide

/-- C7 amended: on every ingestion (web search or extraction) the engine
assigns citation numbers starting at len(context.sources) + 1, consecutively,
so the numbers within one ingested batch are pairwise distinct — but they are
not unique across the whole context (C7_numbering_counterexample). The
web search records exactly the freshly numbered batch as the retained
search's citations. -/
theorem C7_numbering_amended (c : ResearchContext) (args : WebSearchArgs)
    (fetched : List SourceData) (ts : Nat) :
    (webSearchEffect args fetched ts c).searches.getLast? =
      some { query := args.query, answer := none,
             citations := rearrange_sources fetched (c.sources.length + 1),
             timestamp := ts } ∧
    (rearrange_sources fetched (c.sources.length + 1)).map SourceData.number =
      List.range' (c.sources.length + 1) fetched.length ∧
    ((rearrange_sources fetched (c.sources.length + 1)).map SourceData.number).Nodup ∧
    (extractEffect fetched c).sources =
      dictInsertAll c.sources (rearrange_sources fetched (c.sources.length + 1)) := by
  refine ⟨?_, rearrange_sources_numbers fetched _, ?_, rfl⟩
  · show (cleanup_old_searches_and_save_summary 1 _).searches.getLast? = _
    rw [cleanup_keep1_getLast]
    exact List.getLast?_concat _
  · rw [rearrange_sources_numbers]
    exact List.nodup_range' _ _

/-- C8: for an agent waiting for clarification, provide_clarification appends
the clarification text to the conversation as a user turn, increments
clarifications_used by exactly one, sets the resume signal, and flips the
state back to RESEARCHING. -/
theorem C8_provide_clarification (a : Agent) (text : String)
    (h : a.ctx.state = .waiting_for_clarification) :
    (provide_clarification a text).conversation =
      a.conversation ++ [("user", "CLARIFICATIONS: " ++ text)] ∧
    (provide_clarification a text).ctx.clarifications_used =
      a.ctx.clarifications_used + 1 ∧
    (provide_clarification a text).ctx.clarification_received = true ∧
    (provide_clarification a text).ctx.state = .researching :=
  ⟨rfl, rfl, rfl, rfl⟩

/-- C8 witness: the resume contract at a concrete suspended agent. -/
theorem C8_provide_clarification_witness :
    ({ task := "t", maxIterations := 3,
       ctx := { state := .waiting_for_clarification } } : Agent).ctx.state =
      .waiting_for_clarification ∧
    (provide_clarification
        { task := "t", maxIterations := 3,
          ctx := { state := .waiting_for_clarification } } "ans").ctx.state =
      .researching ∧
    (provide_clarification
        { task := "t", maxIterations := 3,
          ctx := { state := .waiting_for_clarification } } "ans").ctx.clarifications_used = 1 :=
  ⟨rfl,
   (C8_provide_clarification
     { task := "t", maxIterations := 3,
       ctx := { state := .waiting_for_clarification } } "ans" rfl).2.2.2,
   (C8_provide_clarification
     { task := "t", maxIterations := 3,
       ctx := { state := .waiting_for_clarification } } "ans" rfl).2.1⟩

/-- C10: report validation is atomic. A CreateReportTool call whose title,
direct answer or content is empty or whitespace-only returns the error text,
performs no side effect (no latch, no file) and leaves the context exactly as
it was; a valid call sets report_created to true, and does so before the file
write. -/
theorem C10_report_atomicity (a : CreateReportArgs) (now : String)
    (c : ResearchContext) :
    (reportInvalid a →
      createReportCall a now c = (c, [], .text reportValidationError)) ∧
    (¬ reportInvalid a →
      (createReportCall a now c).1 = { c with report_created := true } ∧
      (createReportCall a now c).2.1 =
        [ReportEffect.markReportCreated,
         ReportEffect.writeFile (now ++ "_" ++ safeTitle a.title ++ ".md")
           (reportFileContent a now { c with report_created := true })]) := by
  constructor
  · intro h
    unfold createReportCall
    rw [if_pos h]
  · intro h
    unfold createReportCall
    rw [if_neg h]
    exact ⟨rfl, rfl⟩

/-- C10 witness: an empty-title call is rejected without side effects, a
complete call sets the latch. -/
theorem C10_report_atomicity_witness :
    reportInvalid { title := " ", direct_answer := "x", content := "y" } ∧
    createReportCall { title := " ", direct_answer := "x", content := "y" } "20240101" {} =
      ({}, [], .text reportValidationError) ∧
    ¬ reportInvalid { title := "T", direct_answer := "x", content := "y" } ∧
    (createReportCall { title := "T", direct_answer := "x", content := "y" }
        "20240101" {}).1.report_created = true :=
  ⟨by decide, (C10_report_atomicity _ _ _).1 (by decide), by decide,
   by rw [((C10_report_atomicity
        { title := "T", direct_answer := "x", content := "y" } "20240101" {}).2
      (by decide)).1]⟩

/-- The loop invariants of BaseAgent.execute, by induction on the fuel:
max_iterations is never written by the loop; the three exits leave the state
terminal (the while-condition, the forced COMPLETED at the cap, the FAILED of
the exception handler); the final iteration counts one per pass that ran its
phases plus one for the cap-exit pass; iteration stays within
max_iterations + 1; and fuel at least max_iterations + 1 - iteration (and
positive) never runs out. -/
theorem executeLoop_spec (script : Nat → StepOutcome)
    (hp : ∀ n, (script n).preservesIteration) :
    ∀ (fuel pass : Nat) (a : Agent),
      ((executeLoop script fuel pass a).agent.maxIterations = a.maxIterations) ∧
      ((executeLoop script fuel pass a).exitKind = .finishedState →
        (executeLoop script fuel pass a).agent.ctx.state ∈ finishStates) ∧
      ((executeLoop script fuel pass a).exitKind = .capReached →
        (executeLoop script fuel pass a).agent.ctx.state = .completed) ∧
      ((executeLoop script fuel pass a).exitKind = .raised →
        (executeLoop script fuel pass a).agent.ctx.state = .failed) ∧
      ((executeLoop script fuel pass a).exitKind ≠ .outOfFuel →
        (executeLoop script fuel pass a).agent.ctx.iteration =
          a.ctx.iteration + (executeLoop script fuel pass a).reasoningPhases +
            (if (executeLoop script fuel pass a).exitKind = .capReached then 1 else 0)) ∧
      (a.ctx.iteration ≤ a.maxIterations →
        (executeLoop script fuel pass a).agent.ctx.iteration ≤ a.maxIterations + 1) ∧
      (a.maxIterations + 1 ≤ a.ctx.iteration + fuel ∧ 1 ≤ fuel →
        (executeLoop script fuel pass a).exitKind ≠ .outOfFuel) := by
  intro fuel
  induction fuel with
  | zero =>
    intro pass a
    refine ⟨rfl, ?_, ?_, ?_, ?_, ?_, ?_⟩
    · intro hk; simp [executeLoop] at hk
    · intro hk; simp [executeLoop] at hk
    · intro hk; simp [executeLoop] at hk
    · intro hk; exact absurd rfl hk
    · intro hb; exact Nat.le_succ_of_le hb
    · intro hf; exact absurd hf.2 (by decide)
  | succ n ih =>
    intro pass a
    by_cases h1 : a.ctx.state ∈ finishStates
    · refine ⟨?_, ?_, ?_, ?_, ?_, ?_, ?_⟩
      · simp only [executeLoop, if_pos h1]
      · intro _; simp only [executeLoop, if_pos h1]; exact h1
      · intro hk; simp only [executeLoop, if_pos h1] at hk
        exact absurd hk (by decide)
      · intro hk; simp only [executeLoop, if_pos h1] at hk
        exact absurd hk (by decide)
      · intro _; simp only [executeLoop, if_pos h1]; simp
      · intro hb; simp only [executeLoop, if_pos h1]; omega
      · intro _; simp only [executeLoop, if_pos h1]; exact (by decide)
    · by_cases h2 : a.maxIterations < a.ctx.iteration + 1
      · refine ⟨?_, ?_, ?_, ?_, ?_, ?_, ?_⟩
        · simp only [executeLoop, if_neg h1, if_pos h2]
        · intro hk; simp only [executeLoop, if_neg h1, if_pos h2] at hk
          exact absurd hk (by decide)
        · intro _; simp only [executeLoop, if_neg h1, if_pos h2]
        · intro hk; simp only [executeLoop, if_neg h1, if_pos h2] at hk
          exact absurd hk (by decide)
        · intro _; simp only [executeLoop, if_neg h1, if_pos h2]; simp
        · intro hb; simp only [executeLoop, if_neg h1, if_pos h2]; omega
        · intro _; simp only [executeLoop, if_neg h1, if_pos h2]
          exact (by decide)
      · cases hs : script pass with
        | raises eff =>
          have heff : ∀ c, (eff c).iteration = c.iteration := by
            have hthis := hp pass; rw [hs] at hthis; exact hthis
          refine ⟨?_, ?_, ?_, ?_, ?_, ?_, ?_⟩
          · simp only [executeLoop, if_neg h1, if_neg h2, hs]
          · intro hk; simp only [executeLoop, if_neg h1, if_neg h2, hs] at hk
            exact absurd hk (by decide)
          · intro hk; simp only [executeLoop, if_neg h1, if_neg h2, hs] at hk
            exact absurd hk (by decide)
          · intro _; simp only [executeLoop, if_neg h1, if_neg h2, hs]
          · intro _; simp only [executeLoop, if_neg h1, if_neg h2, hs]
            rw [heff]; simp
          · intro hb; simp only [executeLoop, if_neg h1, if_neg h2, hs]
            rw [heff]; simp; omega
          · intro _; simp only [executeLoop, if_neg h1, if_neg h2, hs]
            exact (by decide)
        | act isClar eff clarText =>
          have heff : ∀ c, (eff c).iteration = c.iteration := by
            have hthis := hp pass; rw [hs] at hthis; exact hthis
          cases isClar with
          | false =>
            obtain ⟨ihF, ihFin, ihCap, ihRaise, ihCount, ihBound, ihFuel⟩ :=
              ih (pass + 1)
                { a with ctx := eff { a.ctx with iteration := a.ctx.iteration + 1 } }
            have hAiter :
                (eff { a.ctx with iteration := a.ctx.iteration + 1 }).iteration =
                  a.ctx.iteration + 1 := heff _
            simp only [] at ihF ihFin ihCap ihRaise ihCount ihBound ihFuel hAiter
            refine ⟨?_, ?_, ?_, ?_, ?_, ?_, ?_⟩
            · simp only [executeLoop, if_neg h1, if_neg h2, hs, Bool.false_eq_true,
                if_false]
              exact ihF
            · intro hk
              simp only [executeLoop, if_neg h1, if_neg h2, hs, Bool.false_eq_true,
                if_false] at hk ⊢
              exact ihFin hk
            · intro hk
              simp only [executeLoop, if_neg h1, if_neg h2, hs, Bool.false_eq_true,
                if_false] at hk ⊢
              exact ihCap hk
            · intro hk
              simp only [executeLoop, if_neg h1, if_neg h2, hs, Bool.false_eq_true,
                if_false] at hk ⊢
              exact ihRaise hk
            · intro hk
              simp only [executeLoop, if_neg h1, if_neg h2, hs, Bool.false_eq_true,
                if_false] at hk ⊢
              rw [ihCount hk, hAiter]
              omega
            · intro hb
              simp only [executeLoop, if_neg h1, if_neg h2, hs, Bool.false_eq_true,
                if_false]
              refine ihBound ?_
              show (eff { a.ctx with iteration := a.ctx.iteration + 1 }).iteration ≤
                a.maxIterations
              rw [hAiter]
              omega
            · intro _
              simp only [executeLoop, if_neg h1, if_neg h2, hs, Bool.false_eq_true,
                if_false]
              refine ihFuel ⟨?_, ?_⟩
              · show a.maxIterations + 1 ≤
                  (eff { a.ctx with iteration := a.ctx.iteration + 1 }).iteration + n
                rw [hAiter]
                omega
              · omega
          | true =>
            obtain ⟨ihF, ihFin, ihCap, ihRaise, ihCount, ihBound, ihFuel⟩ :=
              ih (pass + 1)
                (provide_clarification
                  { a with ctx :=
                      { eff { a.ctx with iteration := a.ctx.iteration + 1 } with
                        state := .waiting_for_clarification,
                        clarification_received := false } }
                  clarText)
            have hAiter :
                (provide_clarification
                    { a with ctx :=
                        { eff { a.ctx with iteration := a.ctx.iteration + 1 } with
                          state := .waiting_for_clarification,
                          clarification_received := false } }
                    clarText).ctx.iteration = a.ctx.iteration + 1 := heff _
            simp only [provide_clarification] at ihCount ihBound ihFuel hAiter
            refine ⟨?_, ?_, ?_, ?_, ?_, ?_, ?_⟩
            · simp only [executeLoop, provide_clarification, if_neg h1, if_neg h2, hs, if_true]
              exact ihF
            · intro hk
              simp only [executeLoop, provide_clarification, if_neg h1, if_neg h2, hs, if_true] at hk ⊢
              exact ihFin hk
            · intro hk
              simp only [executeLoop, provide_clarification, if_neg h1, if_neg h2, hs, if_true] at hk ⊢
              exact ihCap hk
            · intro hk
              simp only [executeLoop, provide_clarification, if_neg h1, if_neg h2, hs, if_true] at hk ⊢
              exact ihRaise hk
            · intro hk
              simp only [executeLoop, provide_clarification, if_neg h1, if_neg h2, hs, if_true] at hk ⊢
              have hc := ihCount hk
              omega
            · intro hb
              simp only [executeLoop, provide_clarification, if_neg h1, if_neg h2, hs, if_true]
              refine ihBound ?_
              omega
            · intro _
              simp only [executeLoop, provide_clarification, if_neg h1, if_neg h2, hs, if_true]
              refine ihFuel ⟨?_, ?_⟩
              · omega
              · omega
/-- The exception handler's guarantee needs no assumption on the script: a
raised exit always leaves the state FAILED. -/
theorem executeLoop_raised_failed (script : Nat → StepOutcome) :
    ∀ (fuel pass : Nat) (a : Agent),
      (executeLoop script fuel pass a).exitKind = .raised →
      (executeLoop script fuel pass a).agent.ctx.state = .failed := by
  intro fuel
  induction fuel with
  | zero => intro pass a hk; simp [executeLoop] at hk
  | succ n ih =>
    intro pass a hk
    by_cases h1 : a.ctx.state ∈ finishStates
    · simp only [executeLoop, if_pos h1] at hk
      exact absurd hk (by decide)
    · by_cases h2 : a.maxIterations < a.ctx.iteration + 1
      · simp only [executeLoop, if_neg h1, if_pos h2] at hk
        exact absurd hk (by decide)
      · cases hs : script pass with
        | raises eff =>
          simp only [executeLoop, if_neg h1, if_neg h2, hs]
        | act isClar eff clarText =>
          cases isClar with
          | false =>
            simp only [executeLoop, if_neg h1, if_neg h2, hs, Bool.false_eq_true,
              if_false] at hk ⊢
            exact ih (pass + 1) _ hk
          | true =>
            simp only [executeLoop, if_neg h1, if_neg h2, hs, if_true] at hk ⊢
            exact ih (pass + 1) _ hk

/-- BaseAgent.execute never runs out of fuel (the loop increments iteration
every pass and max_iterations + 1 passes force the cap exit), and its result
is governed by the loop invariants, whatever the IO fate of the two cleanup
calls. -/
theorem execute_spec (script : Nat → StepOutcome)
    (hp : ∀ n, (script n).preservesIteration) (finishFate saveFate : CleanupOutcome)
    (a : Agent) :
    (execute script finishFate saveFate a).exitKind ≠ .outOfFuel ∧
    (execute script finishFate saveFate a).agent.ctx.iteration =
      a.ctx.iteration + (execute script finishFate saveFate a).reasoningPhases +
        (if (execute script finishFate saveFate a).exitKind = .capReached then 1
         else 0) ∧
    (a.ctx.iteration ≤ a.maxIterations →
      (execute script finishFate saveFate a).agent.ctx.iteration ≤
        a.maxIterations + 1) ∧
    ((execute script finishFate saveFate a).exitKind = .finishedState →
      (execute script finishFate saveFate a).agent.ctx.state ∈ finishStates) ∧
    ((execute script finishFate saveFate a).exitKind = .capReached →
      (execute script finishFate saveFate a).agent.ctx.state = .completed) ∧
    ((execute script finishFate saveFate a).exitKind = .raised →
      (execute script finishFate saveFate a).agent.ctx.state = .failed) := by
  obtain ⟨hF, hFin, hCap, hRaise, hCount, hBound, hFuel⟩ :=
    executeLoop_spec script hp (a.maxIterations + 1) 0
      { a with conversation := a.conversation ++
          [("user", "\nORIGINAL USER REQUEST: '" ++ a.task ++ "'\n")] }
  simp only [] at hF hFin hCap hRaise hCount hBound hFuel
  have hNoFuel := hFuel ⟨by omega, by omega⟩
  cases finishFate <;> cases saveFate <;>
    (simp only [execute]
     exact ⟨hNoFuel, hCount hNoFuel, hBound, hFin, hCap, hRaise⟩)

/-- A script that never reaches a terminal state: every pass is a completed
phase triple whose tool leaves the context untouched. -/
def scriptNoStop : Nat → StepOutcome := fun _ => .act false id ""

/-- A script whose first pass raises out of its phases. -/
def scriptRaise : Nat → StepOutcome := fun _ => .raises id

/-- C2 counterexample: with max_iterations = 1 and a script that never
terminates on its own, the loop runs one reasoning phase, then the second
pass increments the counter to 2 and stops at the cap before any phase: the
final iteration (2) differs from the number of reasoning phases run (1). -/
theorem C2_iteration_counterexample :
    (execute scriptNoStop .ok .ok (Agent.new "t" 1)).agent.ctx.iteration = 2 ∧
    (execute scriptNoStop .ok .ok (Agent.new "t" 1)).reasoningPhases = 1 ∧
    (execute scriptNoStop .ok .ok (Agent.new "t" 1)).agent.ctx.iteration ≠
      (execute scriptNoStop .ok .ok (Agent.new "t" 1)).reasoningPhases := by
  refine ⟨by decide, by decide, by decide⟩

/-- C2 amended: on each loop pass the counter is incremented first, and at
iteration > max_iterations the state is forced to COMPLETED before any phase
runs; consequently the final iteration equals the number of reasoning phases
run plus one exactly when the loop exits through the cap, equals it on every
other exit, and never exceeds max_iterations + 1. -/
theorem C2_iteration_amended (script : Nat → StepOutcome) (task : String)
    (mi : Nat) (finishFate saveFate : CleanupOutcome)
    (hp : ∀ n, (script n).preservesIteration) :
    (execute script finishFate saveFate (Agent.new task mi)).agent.ctx.iteration =
      (execute script finishFate saveFate (Agent.new task mi)).reasoningPhases +
        (if (execute script finishFate saveFate (Agent.new task mi)).exitKind =
            .capReached then 1
         else 0) ∧
    (execute script finishFate saveFate (Agent.new task mi)).agent.ctx.iteration ≤
      mi + 1 ∧
    ((execute script finishFate saveFate (Agent.new task mi)).exitKind ≠ .capReached →
      (execute script finishFate saveFate (Agent.new task mi)).agent.ctx.iteration =
        (execute script finishFate saveFate (Agent.new task mi)).reasoningPhases) := by
  obtain ⟨-, hCount, hBound, -, -, -⟩ :=
    execute_spec script hp finishFate saveFate (Agent.new task mi)
  refine ⟨by simpa [Agent.new] using hCount,
    by simpa [Agent.new] using hBound (by simp [Agent.new]), ?_⟩
  intro hk
  rw [if_neg hk] at hCount
  simpa [Agent.new] using hCount

/-- C2 witness: the amended counting law at the concrete cap-exit run. -/
theorem C2_iteration_witness :
    (execute scriptNoStop .ok .ok (Agent.new "t" 1)).agent.ctx.iteration =
      (execute scriptNoStop .ok .ok (Agent.new "t" 1)).reasoningPhases +
        (if (execute scriptNoStop .ok .ok (Agent.new "t" 1)).exitKind =
            .capReached then 1
         else 0) ∧
    (execute scriptNoStop .ok .ok (Agent.new "t" 1)).agent.ctx.iteration ≤ 2 :=
  ⟨(C2_iteration_amended scriptNoStop "t" 1 .ok .ok (fun _ _ => rfl)).1,
   (C2_iteration_amended scriptNoStop "t" 1 .ok .ok (fun _ _ => rfl)).2.1⟩

/-- C4: every terminating execution ends with the state in
{COMPLETED, FAILED, ERROR}: the while-condition admits only terminal states,
the cap exit forces COMPLETED, and the exception handler forces FAILED.
WAITING_FOR_CLARIFICATION is never observed at loop exit (the modelled
suspend always resumes; an abandoned wait never exits the loop at all). -/
theorem C4_terminal_state (script : Nat → StepOutcome) (task : String)
    (mi : Nat) (finishFate saveFate : CleanupOutcome)
    (hp : ∀ n, (script n).preservesIteration) :
    (execute script finishFate saveFate (Agent.new task mi)).agent.ctx.state ∈
      finishStates := by
  obtain ⟨hNoFuel, -, -, hFin, hCap, hRaise⟩ :=
    execute_spec script hp finishFate saveFate (Agent.new task mi)
  cases hk : (execute script finishFate saveFate (Agent.new task mi)).exitKind with
  | finishedState => exact hFin hk
  | capReached => rw [hCap hk]; decide
  | raised => rw [hRaise hk]; decide
  | outOfFuel => exact absurd hk hNoFuel

/-- C4 witness: the terminal-state invariant at a concrete run. -/
theorem C4_terminal_state_witness :
    (execute scriptNoStop .ok .ok (Agent.new "t" 1)).agent.ctx.state ∈
      finishStates :=
  C4_terminal_state scriptNoStop "t" 1 .ok .ok (fun _ _ => rfl)

/-- C9 counterexample: the finally block's own IO can fail. If
_save_agent_log() raises, that exception escapes execute() and the log is not
persisted; if streaming_generator.finish() raises, the sink is not flushed
and the log save is skipped entirely. So persistence does not happen on every
exit path, and an exception can escape the top-level execute() call outside
construction. -/
theorem C9_cleanup_counterexample :
    (execute scriptNoStop .ok .raisesErr (Agent.new "t" 1)).logSaved = false ∧
    (execute scriptNoStop .ok .raisesErr (Agent.new "t" 1)).escaped = true ∧
    (execute scriptNoStop .raisesErr .ok (Agent.new "t" 1)).streamFinished = false ∧
    (execute scriptNoStop .raisesErr .ok (Agent.new "t" 1)).logSaved = false :=
  ⟨rfl, rfl, rfl, rfl⟩

/-- C9 amended: any unhandled error from the phases is caught by the except
handler and leaves state = FAILED; the finally block always runs, attempting
the sink flush first and, when the flush completes, the log save; when both
cleanup calls complete normally the sink is flushed, the log is persisted and
no exception escapes execute(). But an exception raised by the cleanup calls
themselves escapes execute(), and a failing flush skips log persistence. -/
theorem C9_cleanup_amended (script : Nat → StepOutcome)
    (finishFate saveFate : CleanupOutcome) (a : Agent) :
    ((execute script finishFate saveFate a).exitKind = .raised →
      (execute script finishFate saveFate a).agent.ctx.state = .failed) ∧
    (finishFate = .ok →
      (execute script finishFate saveFate a).streamFinished = true) ∧
    (finishFate = .ok → saveFate = .ok →
      (execute script finishFate saveFate a).logSaved = true ∧
      (execute script finishFate saveFate a).escaped = false) ∧
    ((execute script finishFate saveFate a).escaped = true →
      finishFate = .raisesErr ∨ saveFate = .raisesErr) ∧
    (finishFate = .raisesErr →
      (execute script finishFate saveFate a).logSaved = false) := by
  refine ⟨?_, ?_, ?_, ?_, ?_⟩
  · intro hk
    cases finishFate <;> cases saveFate <;>
      (simp only [execute] at hk ⊢
       exact executeLoop_raised_failed script _ _ _ hk)
  · intro hf
    subst hf
    cases saveFate <;> rfl
  · intro hf hs
    subst hf
    subst hs
    exact ⟨rfl, rfl⟩
  · intro he
    cases finishFate with
    | ok =>
      cases saveFate with
      | ok => exact absurd he (by simp [execute])
      | raisesErr => exact Or.inr rfl
    | raisesErr => exact Or.inl rfl
  · intro hf
    subst hf
    rfl

/-- C9 witness: a run whose phases raise but whose cleanup IO succeeds is
flushed, persisted, escapes nothing, and ends FAILED. -/
theorem C9_cleanup_amended_witness :
    (execute scriptRaise .ok .ok (Agent.new "t" 3)).agent.ctx.state = .failed ∧
    (execute scriptRaise .ok .ok (Agent.new "t" 3)).streamFinished = true ∧
    (execute scriptRaise .ok .ok (Agent.new "t" 3)).logSaved = true ∧
    (execute scriptRaise .ok .ok (Agent.new "t" 3)).escaped = false :=
  ⟨(C9_cleanup_amended scriptRaise .ok .ok (Agent.new "t" 3)).1 (by decide),
   (C9_cleanup_amended scriptRaise .ok .ok (Agent.new "t" 3)).2.1 rfl,
   ((C9_cleanup_amended scriptRaise .ok .ok (Agent.new "t" 3)).2.2.1 rfl rfl).1,
   ((C9_cleanup_amended scriptRaise .ok .ok (Agent.new "t" 3)).2.2.1 rfl rfl).2⟩

end SGR
